import Mathlib

/-!
Verification of the F1 telemetry analysis repository.

The repository compares two Formula 1 drivers' fastest-lap telemetry.
Its numeric core lives in `f1_advanced_visuals.py` (`create_speed_delta_plot`:
overlap range, `np.linspace` grid of 500 points, `np.interp`, pointwise delta)
and `f1_telemetry_analysis.py` (the `F1TelemetryAnalyzer` class: session
loading, fastest-lap retrieval, combined data, comparison summary, CSV export).

Numeric values are modelled as rationals (`ℚ`); the Python floats are binary
rationals, and every arithmetic operation the code performs (min, max,
linspace, linear interpolation, subtraction, mean) is exact rational
arithmetic, so the control flow and algebra are captured faithfully.
External library calls (fastf1, numpy raising on empty input, pandas
formatting) are modelled by explicit oracles and `Option`/`Except` results.
-/

namespace F1

/-- One telemetry sample, mirroring the columns used by the repository:
`Distance`, `Speed`, `Throttle`, `Brake`, `nGear`, `RPM`. -/
structure Sample where
  distance : ℚ
  speed : ℚ
  throttle : ℚ
  brake : ℚ
  gear : ℚ
  rpm : ℚ
  deriving Repr, DecidableEq

/-- A telemetry trace: the ordered list of samples of one lap
(`telemetry` dataframe in the source). -/
abbrev Telemetry := List Sample

/-- The `Distance` column of a telemetry trace (`tel['Distance']`). -/
def distances (t : Telemetry) : List ℚ := t.map (·.distance)

/-- The `Speed` column of a telemetry trace (`tel['Speed']`). -/
def speeds (t : Telemetry) : List ℚ := t.map (·.speed)

/-- pandas `Series.min()` on a nonempty column: the least element,
computed as a running fold.  Returns 0 on the empty list; the code paths
that use it only reach it on nonempty telemetry. -/
def seriesMin : List ℚ → ℚ
  | [] => 0
  | x :: xs => xs.foldl min x

/-- pandas `Series.max()` on a nonempty column: the greatest element,
computed as a running fold.  Returns 0 on the empty list. -/
def seriesMax : List ℚ → ℚ
  | [] => 0
  | x :: xs => xs.foldl max x

/-- pandas `Series.mean()`: sum divided by length. -/
def seriesMean (l : List ℚ) : ℚ := l.sum / l.length

/-- `np.linspace lo hi num` (endpoint=True): `num` evenly spaced points,
point `i` being `lo + (hi - lo) * i / (num - 1)`.  Exact in ℚ, so the last
point equals `hi` whenever `num ≥ 2`. -/
def linspace (lo hi : ℚ) (num : ℕ) : List ℚ :=
  (List.range num).map fun i : ℕ => lo + (hi - lo) * (i : ℚ) / ((num : ℚ) - 1)

/-- `np.interp x xp fp` on a telemetry trace (`xp = Distance`, `fp = Speed`):
values clamp to the first sample's speed left of the range and to the last
sample's speed right of it, and interpolate linearly between consecutive
samples.  On a single sample it returns that sample's speed everywhere;
numpy raises on an empty array, which callers model with `Option`. -/
def interp (x : ℚ) : Telemetry → ℚ
  | [] => 0
  | [s] => s.speed
  | s0 :: s1 :: rest =>
      if x ≤ s0.distance then s0.speed
      else if x ≤ s1.distance then
        s0.speed + (x - s0.distance) * (s1.speed - s0.speed) / (s1.distance - s0.distance)
      else interp x (s1 :: rest)

/-- The numeric core of `create_speed_delta_plot`
(`f1_advanced_visuals.py`, lines 272-280): clip to the overlap of the two
distance ranges, build a 500-point `np.linspace` grid, interpolate each
driver's speed onto it, and subtract pointwise.  Returns `none` when either
trace is empty, modelling numpy's `ValueError` on an empty sample array
(and the source's early `return None` when driver data is missing). -/
def create_speed_delta_plot (tel1 tel2 : Telemetry) : Option (List ℚ × List ℚ) :=
  if tel1.isEmpty || tel2.isEmpty then none
  else
    let min_distance := max (seriesMin (distances tel1)) (seriesMin (distances tel2))
    let max_distance := min (seriesMax (distances tel1)) (seriesMax (distances tel2))
    let common_distance := linspace min_distance max_distance 500
    let speed1_interp := common_distance.map fun x => interp x tel1
    let speed2_interp := common_distance.map fun x => interp x tel2
    let speed_delta := List.zipWith (fun a b => a - b) speed1_interp speed2_interp
    some (common_distance, speed_delta)

/-- Distance samples of a trace are strictly increasing
(the spec's invariant, assumed not validated by the code). -/
def StrictlyIncreasing (t : Telemetry) : Prop :=
  List.Chain' (fun a b => a.distance < b.distance) t

instance (t : Telemetry) : Decidable (StrictlyIncreasing t) :=
  inferInstanceAs (Decidable (List.Chain' (fun a b : Sample => a.distance < b.distance) t))

/-- One driver's fastest-lap record, built by `get_fastest_lap_telemetry`:
driver code, lap time (in seconds, as a rational), lap number, telemetry
and team name. -/
structure DriverInfo where
  driver : String
  lapTime : ℚ
  lapNumber : ℕ
  telemetry : Telemetry
  team : String
  deriving Repr, DecidableEq

/-- A loaded session: what the analyzer keeps of `fastf1.get_session(...)`
after `.load()` — the list of available drivers. -/
structure Session where
  drivers : List String
  deriving Repr, DecidableEq

/-- Oracle for the external `fastf1.get_session` / `session.load()` calls:
either a loaded session or a raised exception with its message. -/
inductive SessionFetch where
  | ok (s : Session)
  | raises (msg : String)
  deriving Repr, DecidableEq

/-- `F1TelemetryAnalyzer.load_session` (`f1_telemetry_analysis.py`,
lines 33-54): try the external load; on success print the confirmation
lines and return `True`, on any exception print the error line and return
`False`.  Result is the returned boolean, the new `self.session` value,
and the console lines printed. -/
def load_session (year : ℕ) (race sessionType : String) (fetch : SessionFetch) :
    Bool × Option Session × List String :=
  match fetch with
  | .ok s =>
      (true, some s,
        ["Loading " ++ toString year ++ " " ++ race ++ " " ++ sessionType ++ " session...",
         "✅ Session loaded successfully!",
         "Available drivers: " ++ String.intercalate ", " s.drivers])
  | .raises e =>
      (false, none,
        ["Loading " ++ toString year ++ " " ++ race ++ " " ++ sessionType ++ " session...",
         "❌ Error loading session: " ++ e])

/-- Oracle for the external lap/telemetry retrieval inside
`get_fastest_lap_telemetry`: `pick_driver`/`pick_fastest` may raise, the
fastest lap may be empty, and `get_telemetry()` may itself raise. -/
inductive LapFetch where
  | raises (msg : String)
  | emptyLap
  | ok (lapTime : ℚ) (lapNumber : ℕ) (team : String) (telemetry : Except String Telemetry)
  deriving Repr

/-- `F1TelemetryAnalyzer.get_fastest_lap_telemetry`
(`f1_telemetry_analysis.py`, lines 56-96): every exception along the way —
a raised retrieval error, the `fastest_lap.empty` `ValueError`, or a
`get_telemetry()` failure — is caught, printed, and converted to `None`;
on success a `driver_info` record is returned.  Result is the returned
value plus the console lines printed. -/
def get_fastest_lap_telemetry (driver : String) (fetch : LapFetch) :
    Option DriverInfo × List String :=
  match fetch with
  | .raises e =>
      (none, ["❌ Error getting telemetry for " ++ driver ++ ": " ++ e])
  | .emptyLap =>
      (none, ["❌ Error getting telemetry for " ++ driver ++ ": No valid laps found for driver "
        ++ driver])
  | .ok _ _ _ (.error e) =>
      (none, ["❌ Error getting telemetry for " ++ driver ++ ": " ++ e])
  | .ok lt ln team (.ok tel) =>
      (some { driver := driver, lapTime := lt, lapNumber := ln, telemetry := tel, team := team },
       ["✅ Fastest lap for " ++ driver])

/-- One row of the combined comparison dataset: a telemetry sample plus
the `Driver` identifier column added by `_prepare_combined_data`. -/
structure CombinedRow where
  distance : ℚ
  speed : ℚ
  throttle : ℚ
  brake : ℚ
  gear : ℚ
  rpm : ℚ
  driver : String
  deriving Repr, DecidableEq

/-- Tag one sample with its driver code (`tel['Driver'] = ...`). -/
def tagRow (d : String) (s : Sample) : CombinedRow :=
  { distance := s.distance, speed := s.speed, throttle := s.throttle,
    brake := s.brake, gear := s.gear, rpm := s.rpm, driver := d }

/-- `F1TelemetryAnalyzer._prepare_combined_data`
(`f1_telemetry_analysis.py`, lines 128-144): tag each driver's telemetry
with its driver code and concatenate the two datasets
(`pd.concat([tel1, tel2], ignore_index=True)`). -/
def _prepare_combined_data (d1 d2 : DriverInfo) : List CombinedRow :=
  d1.telemetry.map (tagRow d1.driver) ++ d2.telemetry.map (tagRow d2.driver)

/-- The mutable state of `F1TelemetryAnalyzer`: `session`, `driver1_data`,
`driver2_data`, `combined_data`, all initialised to `None`. -/
structure AnalyzerState where
  session : Option Session
  driver1_data : Option DriverInfo
  driver2_data : Option DriverInfo
  combined_data : Option (List CombinedRow)
  deriving Repr, DecidableEq

/-- `F1TelemetryAnalyzer.compare_drivers` (`f1_telemetry_analysis.py`,
lines 98-126): return `False` at once when no session is loaded; otherwise
store both telemetry fetch results in `driver1_data`/`driver2_data`, and if
either is `None` return `False`; only when both succeed run
`_prepare_combined_data` (which assigns `combined_data`) and return `True`.
The fetch oracles stand for the two `get_fastest_lap_telemetry` calls. -/
def compare_drivers (st : AnalyzerState) (driver1 driver2 : String)
    (f1 f2 : LapFetch) : Bool × AnalyzerState :=
  match st.session with
  | none => (false, st)
  | some _ =>
      let r1 := (get_fastest_lap_telemetry driver1 f1).1
      let r2 := (get_fastest_lap_telemetry driver2 f2).1
      let st1 := { st with driver1_data := r1, driver2_data := r2 }
      match r1, r2 with
      | some a, some b =>
          (true, { st1 with combined_data := some (_prepare_combined_data a b) })
      | _, _ => (false, st1)

/-- Per-driver half of the comparison summary dictionary. -/
structure DriverSummary where
  name : String
  team : String
  lapTime : ℚ
  lapNumber : ℕ
  maxSpeed : ℚ
  avgSpeed : ℚ
  deriving Repr, DecidableEq

/-- The summary dictionary built by `get_comparison_summary`. -/
structure ComparisonSummary where
  driver1 : DriverSummary
  driver2 : DriverSummary
  time_difference_seconds : ℚ
  faster_driver : String
  deriving Repr, DecidableEq

/-- `F1TelemetryAnalyzer.get_comparison_summary`
(`f1_telemetry_analysis.py`, lines 146-180): `None` unless both driver
records are present; otherwise per-driver name/team/lap data with
`Speed.max()` and `Speed.mean()`, the lap-time difference
`(t1 - t2).total_seconds()`, and `faster_driver = driver1 if time_diff < 0
else driver2`. -/
def get_comparison_summary (d1 d2 : Option DriverInfo) : Option ComparisonSummary :=
  match d1, d2 with
  | some a, some b =>
      let time_diff := a.lapTime - b.lapTime
      some
        { driver1 :=
            { name := a.driver, team := a.team, lapTime := a.lapTime,
              lapNumber := a.lapNumber,
              maxSpeed := seriesMax (speeds a.telemetry),
              avgSpeed := seriesMean (speeds a.telemetry) },
          driver2 :=
            { name := b.driver, team := b.team, lapTime := b.lapTime,
              lapNumber := b.lapNumber,
              maxSpeed := seriesMax (speeds b.telemetry),
              avgSpeed := seriesMean (speeds b.telemetry) },
          time_difference_seconds := time_diff,
          faster_driver := if time_diff < 0 then a.driver else b.driver }
  | _, _ => none

/-- Modelled from the spec: the CSV numeric round trip of `save_data`
(`to_csv` then re-parsing), which is not reimplemented here because the
formatting is done by the external pandas library.  pandas writes float
cells via `repr`, which keeps at least 12 fractional decimal digits, so
the composite of formatting and re-parsing is rounding at 12 decimal
places. -/
def to_csv_cell (q : ℚ) : ℚ := ((round (q * 10 ^ 12) : ℤ) : ℚ) / 10 ^ 12

/-- Writing one combined row with `save_data` and re-parsing it: each
numeric cell goes through `to_csv_cell`, the driver code is written
verbatim. -/
def csv_roundtrip_row (r : CombinedRow) : CombinedRow :=
  { distance := to_csv_cell r.distance, speed := to_csv_cell r.speed,
    throttle := to_csv_cell r.throttle, brake := to_csv_cell r.brake,
    gear := to_csv_cell r.gear, rpm := to_csv_cell r.rpm, driver := r.driver }

/-- `F1TelemetryAnalyzer.save_data` (`f1_telemetry_analysis.py`, lines
182-193) followed by re-parsing the produced CSV: `None` (plus an error
message) when there is no combined data, otherwise one CSV row per
combined row, re-parsed through `csv_roundtrip_row`. -/
def save_data (combined : Option (List CombinedRow)) : Option (List CombinedRow) :=
  match combined with
  | some rows => some (rows.map csv_roundtrip_row)
  | none => none

/-- A concrete sample with only distance and speed set, used to build
concrete telemetry traces for witnesses. -/
def sampleAt (d v : ℚ) : Sample :=
  { distance := d, speed := v, throttle := 0, brake := 0, gear := 0, rpm := 0 }

/-- Concrete trace over distances 0-10 (speeds 100-110). -/
def exLow : Telemetry := [sampleAt 0 100, sampleAt 10 110]

/-- Concrete trace over distances 20-30 (speeds 50-60): disjoint from `exLow`. -/
def exHigh : Telemetry := [sampleAt 20 50, sampleAt 30 60]

/-- Concrete trace over distances 0-10. -/
def exGridA : Telemetry := [sampleAt 0 100, sampleAt 10 120]

/-- Concrete trace over distances 5-15: overlaps `exGridA` on [5, 10]. -/
def exGridB : Telemetry := [sampleAt 5 90, sampleAt 15 95]

/-- Concrete trace with constant speed 200. -/
def exConstA : Telemetry := [sampleAt 0 200, sampleAt 10 200]

/-- Concrete trace with constant speed 180, overlapping `exConstA`. -/
def exConstB : Telemetry := [sampleAt 5 180, sampleAt 15 180]

/-- Concrete two-sample ramp trace (speed 100 at distance 0, 200 at 10). -/
def exRamp : Telemetry := [sampleAt 0 100, sampleAt 10 200]

/-- Concrete driver record (lap time 70 s). -/
def exDriver1 : DriverInfo :=
  { driver := "VER", lapTime := 70, lapNumber := 5, telemetry := exGridA, team := "Red Bull" }

/-- Concrete driver record (lap time 72 s). -/
def exDriver2 : DriverInfo :=
  { driver := "LEC", lapTime := 72, lapNumber := 7, telemetry := exGridB, team := "Ferrari" }

/-- Concrete driver record with the same lap time as `exDriver1`. -/
def exDriverTie : DriverInfo :=
  { driver := "LEC", lapTime := 70, lapNumber := 7, telemetry := exGridB, team := "Ferrari" }

/-! ### Helper lemmas -/

theorem length_linspace (lo hi : ℚ) (n : ℕ) : (linspace lo hi n).length = n := by
  unfold linspace
  rw [List.length_map, List.length_range]

theorem linspace_mem_bounds (lo hi : ℚ) (n : ℕ) (y : ℚ) (hy : y ∈ linspace lo hi n) :
    min lo hi ≤ y ∧ y ≤ max lo hi := by
  unfold linspace at hy
  obtain ⟨i, hmem, rfl⟩ := List.mem_map.1 hy
  rw [List.mem_range] at hmem
  rcases Nat.lt_or_ge n 2 with hn | hn
  · have hi0 : i = 0 := by omega
    subst hi0
    have hz : lo + (hi - lo) * ((0 : ℕ) : ℚ) / ((n : ℚ) - 1) = lo := by norm_num
    rw [hz]
    exact ⟨min_le_left _ _, le_max_left _ _⟩
  · have hc : (0 : ℚ) < (n : ℚ) - 1 := by
      have : (2 : ℚ) ≤ (n : ℚ) := by exact_mod_cast hn
      linarith
    have hfrac0 : (0 : ℚ) ≤ (i : ℚ) / ((n : ℚ) - 1) :=
      div_nonneg (Nat.cast_nonneg i) (le_of_lt hc)
    have hfrac1 : (i : ℚ) / ((n : ℚ) - 1) ≤ 1 := by
      rw [div_le_one hc]
      have h1 : ((i + 1 : ℕ) : ℚ) ≤ ((n : ℕ) : ℚ) := by exact_mod_cast hmem
      push_cast at h1
      linarith
    rw [mul_div_assoc]
    rcases le_total lo hi with hlh | hhl
    · rw [min_eq_left hlh, max_eq_right hlh]
      constructor
      · nlinarith [mul_nonneg (sub_nonneg.2 hlh) hfrac0]
      · nlinarith [mul_nonneg (sub_nonneg.2 hlh) (sub_nonneg.2 hfrac1)]
    · rw [min_eq_right hhl, max_eq_left hhl]
      constructor
      · nlinarith [mul_nonneg (sub_nonneg.2 hhl) (sub_nonneg.2 hfrac1)]
      · nlinarith [mul_nonneg (sub_nonneg.2 hhl) hfrac0]

theorem linspace_500_first (lo hi : ℚ) : (linspace lo hi 500)[0]? = some lo := by
  unfold linspace
  rw [List.getElem?_map, List.getElem?_range (by norm_num)]
  norm_num

theorem linspace_500_last (lo hi : ℚ) : (linspace lo hi 500)[499]? = some hi := by
  unfold linspace
  rw [List.getElem?_map, List.getElem?_range (by norm_num)]
  simp only [Option.map_some', Option.some.injEq]
  push_cast
  ring_nf

theorem zipWith_map_same {α β : Type} (f : β → β → β) (g h : α → β) (l : List α) :
    List.zipWith f (l.map g) (l.map h) = l.map fun x => f (g x) (h x) := by
  induction l with
  | nil => rfl
  | cons a l ih => simp [ih]

theorem interp_le_head (x : ℚ) (s0 : Sample) (rest : Telemetry) (hx : x ≤ s0.distance) :
    interp x (s0 :: rest) = s0.speed := by
  cases rest with
  | nil => simp [interp]
  | cons s1 rs => simp [interp, if_pos hx]

theorem interp_const (c x : ℚ) (t : Telemetry) (hne : t ≠ [])
    (hc : ∀ s ∈ t, s.speed = c) : interp x t = c := by
  induction t with
  | nil => exact absurd rfl hne
  | cons s0 rest ih =>
    cases rest with
    | nil => simpa [interp] using hc s0 (by simp)
    | cons s1 rs =>
      have h0 : s0.speed = c := hc s0 (by simp)
      have h1 : s1.speed = c := hc s1 (by simp)
      simp only [interp]
      split
      · exact h0
      · split
        · rw [h0, h1]; ring_nf
        · exact ih (by simp) fun s hs => hc s (List.mem_cons_of_mem _ hs)

theorem chain_head_lt (s0 : Sample) (rest : Telemetry)
    (h : StrictlyIncreasing (s0 :: rest)) :
    ∀ s ∈ rest, s0.distance < s.distance := by
  induction rest generalizing s0 with
  | nil => simp
  | cons s1 rs ih =>
    rw [StrictlyIncreasing, List.chain'_cons] at h
    intro s hs
    rcases List.mem_cons.1 hs with rfl | hs'
    · exact h.1
    · exact lt_trans h.1 (ih s1 h.2 s hs')

theorem foldl_min_of_le (x : ℚ) (xs : List ℚ) (h : ∀ y ∈ xs, x ≤ y) :
    xs.foldl min x = x := by
  induction xs generalizing x with
  | nil => rfl
  | cons y ys ih =>
    have hxy : min x y = x := min_eq_left (h y (by simp))
    simp only [List.foldl_cons, hxy]
    exact ih x fun z hz => h z (List.mem_cons_of_mem _ hz)

theorem interp_ge_last (x : ℚ) : ∀ (t : Telemetry) (h : t ≠ []), StrictlyIncreasing t →
    (t.getLast h).distance ≤ x → interp x t = (t.getLast h).speed := by
  intro t
  induction t with
  | nil => intro h; exact absurd rfl h
  | cons s0 rest ih =>
    intro h hc hx
    cases rest with
    | nil => simp [interp, List.getLast_singleton]
    | cons s1 rs =>
      have hne' : (s1 :: rs : Telemetry) ≠ [] := by simp
      have hlast : (s0 :: s1 :: rs : Telemetry).getLast h = (s1 :: rs : Telemetry).getLast hne' :=
        List.getLast_cons hne'
      rw [hlast] at hx ⊢
      have hcc := List.chain'_cons.1 hc
      have h01 : s0.distance < s1.distance := hcc.1
      have htail : StrictlyIncreasing (s1 :: rs) := hcc.2
      have hmemlast : (s1 :: rs : Telemetry).getLast hne' ∈ (s1 :: rs : Telemetry) :=
        List.getLast_mem hne'
      have hs0last : s0.distance < ((s1 :: rs : Telemetry).getLast hne').distance :=
        chain_head_lt s0 (s1 :: rs) hc _ hmemlast
      simp only [interp]
      split
      · rename_i hb1
        exact absurd hb1 (not_le.2 (lt_of_lt_of_le hs0last hx))
      · split
        · rename_i hb1 hb2
          cases rs with
          | nil =>
            have hgl : ((s1 :: ([] : List Sample)) : Telemetry).getLast hne' = s1 :=
              List.getLast_singleton _ _
            rw [hgl] at hx ⊢
            have hx1 : x = s1.distance := le_antisymm hb2 hx
            have hd : s1.distance - s0.distance ≠ 0 := ne_of_gt (sub_pos.2 h01)
            rw [hx1]
            field_simp
          | cons r rs' =>
            have hglm : ((s1 :: r :: rs' : Telemetry).getLast hne') ∈ (r :: rs' : Telemetry) := by
              rw [List.getLast_cons (by simp : (r :: rs' : Telemetry) ≠ [])]
              exact List.getLast_mem _
            have hlt : s1.distance < ((s1 :: r :: rs' : Telemetry).getLast hne').distance :=
              chain_head_lt s1 (r :: rs') htail _ hglm
            linarith
        · rename_i hb1 hb2
          exact ih hne' htail hx

theorem interp_between (x : ℚ) :
    ∀ (t : Telemetry), StrictlyIncreasing t → ∀ (i : ℕ) (p q : Sample),
      t[i]? = some p → t[i + 1]? = some q → p.distance ≤ x → x ≤ q.distance →
      min p.speed q.speed ≤ interp x t ∧ interp x t ≤ max p.speed q.speed := by
  intro t
  induction t with
  | nil => intro _ i p q hp; simp at hp
  | cons s0 rest ih =>
    intro hc i p q hp hq hxl hxr
    cases rest with
    | nil =>
      rcases i with _ | j
      · rw [List.getElem?_cons_succ] at hq; simp at hq
      · rw [List.getElem?_cons_succ] at hp; simp at hp
    | cons s1 rs =>
      have hcc := List.chain'_cons.1 hc
      have h01 : s0.distance < s1.distance := hcc.1
      have htail : StrictlyIncreasing (s1 :: rs) := hcc.2
      rcases i with _ | j
      · rw [List.getElem?_cons_zero, Option.some.injEq] at hp
        rw [List.getElem?_cons_succ, List.getElem?_cons_zero, Option.some.injEq] at hq
        obtain rfl := hp
        obtain rfl := hq
        rcases le_or_lt x s0.distance with hb1 | hb1
        · simp only [interp, if_pos hb1]
          exact ⟨min_le_left _ _, le_max_left _ _⟩
        · have hb1' : ¬ x ≤ s0.distance := not_le.2 hb1
          rcases le_or_lt x s1.distance with hb2 | hb2
          · simp only [interp, if_neg hb1', if_pos hb2]
            have hD : (0 : ℚ) < s1.distance - s0.distance := sub_pos.2 h01
            have hN0 : (0 : ℚ) ≤ x - s0.distance := sub_nonneg.2 hxl
            have hND : x - s0.distance ≤ s1.distance - s0.distance := by linarith
            rcases le_total s0.speed s1.speed with hss | hss
            · rw [min_eq_left hss, max_eq_right hss]
              constructor
              · have h2 : 0 ≤ (x - s0.distance) * (s1.speed - s0.speed) /
                    (s1.distance - s0.distance) :=
                  div_nonneg (mul_nonneg hN0 (sub_nonneg.2 hss)) hD.le
                linarith
              · have h2 : (x - s0.distance) * (s1.speed - s0.speed) / (s1.distance - s0.distance)
                    ≤ s1.speed - s0.speed := by
                  rw [div_le_iff₀ hD]
                  nlinarith
                linarith
            · rw [min_eq_right hss, max_eq_left hss]
              constructor
              · have h2 : (x - s0.distance) * (s1.speed - s0.speed) / (s1.distance - s0.distance)
                    ≥ s1.speed - s0.speed := by
                  rw [ge_iff_le, le_div_iff₀ hD]
                  nlinarith
                linarith
              · have h2 : (x - s0.distance) * (s1.speed - s0.speed) / (s1.distance - s0.distance)
                    ≤ 0 := by
                  rw [div_le_iff₀ hD]
                  nlinarith
                linarith
          · exact absurd hxr (not_le.2 hb2)
      · rw [List.getElem?_cons_succ] at hp hq
        have hpmem : p ∈ (s1 :: rs : Telemetry) := List.getElem?_mem hp
        have hs0p : s0.distance < p.distance := chain_head_lt s0 (s1 :: rs) hc p hpmem
        have hb1 : ¬ x ≤ s0.distance := not_le.2 (lt_of_lt_of_le hs0p hxl)
        rcases le_or_lt x s1.distance with hb2 | hb2
        · cases j with
          | zero =>
            rw [List.getElem?_cons_zero, Option.some.injEq] at hp
            obtain rfl := hp
            have hx1 : x = s1.distance := le_antisymm hb2 hxl
            simp only [interp, if_neg hb1, if_pos hb2]
            have hD : s1.distance - s0.distance ≠ 0 := ne_of_gt (sub_pos.2 h01)
            have hval : s0.speed + (x - s0.distance) * (s1.speed - s0.speed) /
                (s1.distance - s0.distance) = s1.speed := by
              rw [hx1]
              field_simp
            rw [hval]
            exact ⟨min_le_left _ _, le_max_left _ _⟩
          | succ k =>
            rw [List.getElem?_cons_succ] at hp
            have hpmem2 : p ∈ rs := List.getElem?_mem hp
            have hlt : s1.distance < p.distance := chain_head_lt s1 rs htail p hpmem2
            exact absurd (lt_of_lt_of_le hlt hxl) (not_lt.2 hb2)
        · simp only [interp, if_neg hb1, if_neg (not_le.2 hb2)]
          exact ih htail j p q hp hq hxl hxr

theorem seriesMin_distances (s0 : Sample) (rest : Telemetry)
    (hc : StrictlyIncreasing (s0 :: rest)) :
    seriesMin (distances (s0 :: rest)) = s0.distance := by
  have hall : ∀ y ∈ distances rest, s0.distance ≤ y := by
    intro y hy
    obtain ⟨s, hs, rfl⟩ := List.mem_map.1 hy
    exact (chain_head_lt s0 rest hc s hs).le
  simp only [distances, List.map_cons, seriesMin]
  exact foldl_min_of_le _ _ hall

theorem seriesMax_distances : ∀ (t : Telemetry) (h : t ≠ []), StrictlyIncreasing t →
    seriesMax (distances t) = (t.getLast h).distance := by
  intro t
  induction t with
  | nil => intro h; exact absurd rfl h
  | cons s0 rest ih =>
    intro h hc
    cases rest with
    | nil => simp [seriesMax, distances, List.getLast_singleton]
    | cons s1 rs =>
      have hcc := List.chain'_cons.1 hc
      have hne' : (s1 :: rs : Telemetry) ≠ [] := by simp
      have hstep : seriesMax (distances (s0 :: s1 :: rs)) = seriesMax (distances (s1 :: rs)) := by
        simp only [distances, List.map_cons, seriesMax, List.foldl_cons]
        rw [max_eq_right hcc.1.le]
      rw [hstep, ih hne' hcc.2, List.getLast_cons hne']

theorem head_le_getLast (s0 : Sample) (rest : Telemetry)
    (hc : StrictlyIncreasing (s0 :: rest)) :
    s0.distance ≤ ((s0 :: rest : Telemetry).getLast (by simp)).distance := by
  cases rest with
  | nil => simp [List.getLast_singleton]
  | cons s1 rs =>
    have hne' : (s1 :: rs : Telemetry) ≠ [] := by simp
    rw [List.getLast_cons hne']
    exact (chain_head_lt s0 (s1 :: rs) hc _ (List.getLast_mem hne')).le

theorem create_speed_delta_plot_eq (t1 t2 : Telemetry) (h1 : t1 ≠ []) (h2 : t2 ≠ []) :
    create_speed_delta_plot t1 t2 =
      some (linspace (max (seriesMin (distances t1)) (seriesMin (distances t2)))
              (min (seriesMax (distances t1)) (seriesMax (distances t2))) 500,
            (linspace (max (seriesMin (distances t1)) (seriesMin (distances t2)))
              (min (seriesMax (distances t1)) (seriesMax (distances t2))) 500).map
              fun x => interp x t1 - interp x t2) := by
  have hcond : (t1.isEmpty || t2.isEmpty) = false := by
    rw [Bool.or_eq_false_iff]
    constructor <;> rw [List.isEmpty_eq_false] <;> assumption
  unfold create_speed_delta_plot
  rw [hcond]
  simp only [Bool.false_eq_true, if_false, zipWith_map_same]

theorem foldl_max_mem (xs : List ℚ) (x : ℚ) : xs.foldl max x ∈ x :: xs := by
  induction xs generalizing x with
  | nil => simp
  | cons y ys ih =>
    simp only [List.foldl_cons]
    have h := List.mem_cons.1 (ih (max x y))
    rcases h with h | h
    · rw [h]
      rcases max_choice x y with hm | hm
      · rw [hm]; exact List.mem_cons_self _ _
      · rw [hm]; exact List.mem_cons_of_mem _ (List.mem_cons_self _ _)
    · exact List.mem_cons_of_mem _ (List.mem_cons_of_mem _ h)

theorem base_le_foldl_max (xs : List ℚ) : ∀ x : ℚ, x ≤ xs.foldl max x := by
  induction xs with
  | nil => intro x; simp
  | cons y ys ih =>
    intro x
    exact le_trans (le_max_left x y) (ih (max x y))

theorem le_foldl_max (xs : List ℚ) (x v : ℚ) (hv : v ∈ x :: xs) :
    v ≤ xs.foldl max x := by
  induction xs generalizing x with
  | nil => simp at hv; simp [hv]
  | cons y ys ih =>
    simp only [List.foldl_cons]
    rcases List.mem_cons.1 hv with rfl | hv'
    · exact le_trans (le_max_left v y) (base_le_foldl_max ys (max v y))
    · rcases List.mem_cons.1 hv' with rfl | hv''
      · exact le_trans (le_max_right x v) (base_le_foldl_max ys (max x v))
      · exact ih (max x y) (List.mem_cons_of_mem _ hv'')

theorem seriesMin_head (t : Telemetry) (h : t ≠ []) (hc : StrictlyIncreasing t) :
    seriesMin (distances t) = (t.head h).distance := by
  cases t with
  | nil => exact absurd rfl h
  | cons s0 rest => simpa using seriesMin_distances s0 rest hc

theorem interp_head (x : ℚ) (t : Telemetry) (h : t ≠ []) (hx : x ≤ (t.head h).distance) :
    interp x t = (t.head h).speed := by
  cases t with
  | nil => exact absurd rfl h
  | cons s0 rest => simpa using interp_le_head x s0 rest (by simpa using hx)

theorem seriesMin_le_seriesMax (t : Telemetry) (h : t ≠ []) (hc : StrictlyIncreasing t) :
    seriesMin (distances t) ≤ seriesMax (distances t) := by
  rw [seriesMin_head t h hc, seriesMax_distances t h hc]
  cases t with
  | nil => exact absurd rfl h
  | cons s0 rest => simpa using head_le_getLast s0 rest hc

theorem to_csv_cell_close (q : ℚ) : |to_csv_cell q - q| ≤ 1 / 10 ^ 4 := by
  have hrepr : to_csv_cell q - q = ((round (q * 10 ^ 12) : ℤ) - q * 10 ^ 12) / 10 ^ 12 := by
    unfold to_csv_cell
    field_simp
    ring
  have hround : |q * 10 ^ 12 - round (q * 10 ^ 12)| ≤ 1 / 2 := abs_sub_round (q * 10 ^ 12)
  have habs : |((round (q * 10 ^ 12) : ℤ) : ℚ) - q * 10 ^ 12| ≤ 1 / 2 := by
    rw [abs_sub_comm]
    exact hround
  rw [hrepr, abs_div]
  have hden : |(10 : ℚ) ^ 12| = 10 ^ 12 := abs_of_pos (by norm_num)
  rw [hden]
  rw [div_le_iff₀ (by norm_num : (0 : ℚ) < 10 ^ 12)]
  calc |((round (q * 10 ^ 12) : ℤ) : ℚ) - q * 10 ^ 12| ≤ 1 / 2 := habs
    _ ≤ 1 / 10 ^ 4 * 10 ^ 12 := by norm_num

/-! ### Claim theorems -/

/-- Claim C1: for two traces with strictly increasing distance samples and
overlapping distance ranges, the comparator builds a common grid running
exactly from `max(min1, min2)` (its first point) to `min(max1, max2)` (its
last point), every grid point lies inside both drivers' sampled [min, max]
distance ranges (so interpolation never extrapolates), and the returned
delta is, at each grid point, the interpolated speed of driver 1 minus the
interpolated speed of driver 2. -/
theorem speed_delta_grid_spec (t1 t2 : Telemetry)
    (hc1 : StrictlyIncreasing t1) (hc2 : StrictlyIncreasing t2)
    (h1 : t1 ≠ []) (h2 : t2 ≠ [])
    (hov : max (seriesMin (distances t1)) (seriesMin (distances t2)) ≤
      min (seriesMax (distances t1)) (seriesMax (distances t2))) :
    ∃ grid delta, create_speed_delta_plot t1 t2 = some (grid, delta) ∧
      grid[0]? = some (max (seriesMin (distances t1)) (seriesMin (distances t2))) ∧
      grid[499]? = some (min (seriesMax (distances t1)) (seriesMax (distances t2))) ∧
      (∀ g ∈ grid,
        seriesMin (distances t1) ≤ g ∧ g ≤ seriesMax (distances t1) ∧
        seriesMin (distances t2) ≤ g ∧ g ≤ seriesMax (distances t2)) ∧
      delta = grid.map fun g => interp g t1 - interp g t2 := by
  refine ⟨_, _, create_speed_delta_plot_eq t1 t2 h1 h2, linspace_500_first _ _,
    linspace_500_last _ _, ?_, rfl⟩
  intro g hg
  obtain ⟨hlo, hhi⟩ := linspace_mem_bounds _ _ _ g hg
  rw [min_eq_left hov] at hlo
  rw [max_eq_right hov] at hhi
  exact ⟨le_trans (le_max_left _ _) hlo, le_trans hhi (min_le_left _ _),
    le_trans (le_max_right _ _) hlo, le_trans hhi (min_le_right _ _)⟩

/-- Witness for C1 at the concrete overlapping traces `exGridA`, `exGridB`. -/
theorem speed_delta_grid_spec_witness :
    ∃ grid delta, create_speed_delta_plot exGridA exGridB = some (grid, delta) ∧
      grid[0]? = some (max (seriesMin (distances exGridA)) (seriesMin (distances exGridB))) ∧
      grid[499]? = some (min (seriesMax (distances exGridA)) (seriesMax (distances exGridB))) ∧
      (∀ g ∈ grid,
        seriesMin (distances exGridA) ≤ g ∧ g ≤ seriesMax (distances exGridA) ∧
        seriesMin (distances exGridB) ≤ g ∧ g ≤ seriesMax (distances exGridB)) ∧
      delta = grid.map fun g => interp g exGridA - interp g exGridB :=
  speed_delta_grid_spec exGridA exGridB
    (by norm_num [StrictlyIncreasing, exGridA, sampleAt])
    (by norm_num [StrictlyIncreasing, exGridB, sampleAt])
    (by decide) (by decide) (by decide)

/-- Claim C3: when both traces have constant speeds (200 and 180), the
comparator's delta equals the constant 20 at every one of its 500 grid
points. -/
theorem speed_delta_const_20 (t1 t2 : Telemetry)
    (hc1 : StrictlyIncreasing t1) (hc2 : StrictlyIncreasing t2)
    (h1 : t1 ≠ []) (h2 : t2 ≠ [])
    (hs1 : ∀ s ∈ t1, s.speed = 200) (hs2 : ∀ s ∈ t2, s.speed = 180)
    (hov : max (seriesMin (distances t1)) (seriesMin (distances t2)) ≤
      min (seriesMax (distances t1)) (seriesMax (distances t2))) :
    ∃ grid delta, create_speed_delta_plot t1 t2 = some (grid, delta) ∧
      delta.length = 500 ∧ ∀ v ∈ delta, v = 20 := by
  refine ⟨_, _, create_speed_delta_plot_eq t1 t2 h1 h2,
    by rw [List.length_map, length_linspace], ?_⟩
  intro v hv
  obtain ⟨g, hg, rfl⟩ := List.mem_map.1 hv
  rw [interp_const 200 g t1 h1 hs1, interp_const 180 g t2 h2 hs2]
  norm_num

/-- Witness for C3 at the concrete constant-speed traces. -/
theorem speed_delta_const_20_witness :
    ∃ grid delta, create_speed_delta_plot exConstA exConstB = some (grid, delta) ∧
      delta.length = 500 ∧ ∀ v ∈ delta, v = 20 :=
  speed_delta_const_20 exConstA exConstB
    (by norm_num [StrictlyIncreasing, exConstA, sampleAt])
    (by norm_num [StrictlyIncreasing, exConstB, sampleAt])
    (by decide) (by decide) (by decide) (by decide) (by decide)

/-- Claim C4: for every pair of input traces, whenever the comparator
produces a grid at all it contains exactly 500 points and the delta has
exactly 500 entries; and on every pair of nonempty traces it does produce
one.  (On an empty trace numpy raises instead of returning, which the
embedding models as `none`.) -/
theorem speed_delta_grid_500 (t1 t2 : Telemetry) :
    (∀ grid delta, create_speed_delta_plot t1 t2 = some (grid, delta) →
      grid.length = 500 ∧ delta.length = 500) ∧
    (t1 ≠ [] → t2 ≠ [] →
      ∃ grid delta, create_speed_delta_plot t1 t2 = some (grid, delta)) := by
  constructor
  · intro grid delta h
    by_cases h1 : t1 = []
    · subst h1
      simp [create_speed_delta_plot] at h
    by_cases h2 : t2 = []
    · subst h2
      simp [create_speed_delta_plot] at h
    rw [create_speed_delta_plot_eq t1 t2 h1 h2] at h
    have h' := Option.some.inj h
    injection h' with hg hd
    subst hg
    subst hd
    exact ⟨length_linspace _ _ _, by rw [List.length_map, length_linspace]⟩
  · intro h1 h2
    exact ⟨_, _, create_speed_delta_plot_eq t1 t2 h1 h2⟩

/-- Witness for C4 at the concrete traces `exGridA`, `exGridB`. -/
theorem speed_delta_grid_500_witness :
    ∃ grid delta, create_speed_delta_plot exGridA exGridB = some (grid, delta) ∧
      grid.length = 500 ∧ delta.length = 500 := by
  obtain ⟨grid, delta, h⟩ :=
    (speed_delta_grid_500 exGridA exGridB).2 (by decide) (by decide)
  obtain ⟨hg, hd⟩ := (speed_delta_grid_500 exGridA exGridB).1 grid delta h
  exact ⟨grid, delta, h, hg, hd⟩

/-- Counterexample to C2 as stated: `exLow` spans distances [0, 10] and
`exHigh` spans [20, 30] — their ranges do not overlap — yet
`create_speed_delta_plot` does not fail: it returns a result. -/
theorem speed_delta_no_overlap_counterexample :
    seriesMax (distances exLow) < seriesMin (distances exHigh) ∧
      (create_speed_delta_plot exLow exHigh).isSome = true :=
  ⟨by decide, rfl⟩

/-- Claim C2 (amended): when the two distance ranges are disjoint
(driver 1's range entirely below driver 2's), the comparator does NOT fail
with an error; it silently returns a 500-entry delta computed over the
inverted grid, on which both interpolations are clamped, so every delta
value equals driver 1's last speed minus driver 2's first speed. -/
theorem speed_delta_no_overlap_silent (t1 t2 : Telemetry)
    (hc1 : StrictlyIncreasing t1) (hc2 : StrictlyIncreasing t2)
    (h1 : t1 ≠ []) (h2 : t2 ≠ [])
    (hdisj : seriesMax (distances t1) < seriesMin (distances t2)) :
    ∃ grid delta, create_speed_delta_plot t1 t2 = some (grid, delta) ∧
      delta.length = 500 ∧
      ∀ v ∈ delta, v = (t1.getLast h1).speed - (t2.head h2).speed := by
  have hmx1 : seriesMax (distances t1) = (t1.getLast h1).distance :=
    seriesMax_distances t1 h1 hc1
  have hmn2 : seriesMin (distances t2) = (t2.head h2).distance :=
    seriesMin_head t2 h2 hc2
  have h1le : seriesMin (distances t1) ≤ seriesMax (distances t1) :=
    seriesMin_le_seriesMax t1 h1 hc1
  have h2le : seriesMin (distances t2) ≤ seriesMax (distances t2) :=
    seriesMin_le_seriesMax t2 h2 hc2
  have hlo : max (seriesMin (distances t1)) (seriesMin (distances t2)) =
      seriesMin (distances t2) :=
    max_eq_right (le_of_lt (lt_of_le_of_lt h1le hdisj))
  have hhi : min (seriesMax (distances t1)) (seriesMax (distances t2)) =
      seriesMax (distances t1) :=
    min_eq_left (le_of_lt (lt_of_lt_of_le hdisj h2le))
  refine ⟨_, _, create_speed_delta_plot_eq t1 t2 h1 h2,
    by rw [List.length_map, length_linspace], ?_⟩
  intro v hv
  obtain ⟨g, hg, rfl⟩ := List.mem_map.1 hv
  obtain ⟨hb1, hb2⟩ := linspace_mem_bounds _ _ _ g hg
  rw [hlo, hhi] at hb1 hb2
  rw [min_eq_right hdisj.le] at hb1
  rw [max_eq_left hdisj.le] at hb2
  have hi1 : interp g t1 = (t1.getLast h1).speed :=
    interp_ge_last g t1 h1 hc1 (by rw [← hmx1]; exact hb1)
  have hi2 : interp g t2 = (t2.head h2).speed :=
    interp_head g t2 h2 (by rw [← hmn2]; exact hb2)
  rw [hi1, hi2]

/-- Witness for the amended C2 at the concrete disjoint traces: the delta
is constantly 110 - 50 = 60. -/
theorem speed_delta_no_overlap_silent_witness :
    ∃ grid delta, create_speed_delta_plot exLow exHigh = some (grid, delta) ∧
      delta.length = 500 ∧
      ∀ v ∈ delta, v = ((exLow.getLast (by decide)).speed - (exHigh.head (by decide)).speed) :=
  speed_delta_no_overlap_silent exLow exHigh
    (by norm_num [StrictlyIncreasing, exLow, sampleAt])
    (by norm_num [StrictlyIncreasing, exHigh, sampleAt])
    (by decide) (by decide) (by decide)

/-- Claim C7: for a trace with strictly increasing distance samples, the
linearly interpolated speed at any point lying between two consecutive
samples is bounded (inclusively) by the two bounding samples' speeds. -/
theorem interp_monotone_consistent (t : Telemetry) (hc : StrictlyIncreasing t)
    (i : ℕ) (p q : Sample) (hp : t[i]? = some p) (hq : t[i + 1]? = some q)
    (x : ℚ) (hxl : p.distance ≤ x) (hxr : x ≤ q.distance) :
    min p.speed q.speed ≤ interp x t ∧ interp x t ≤ max p.speed q.speed :=
  interp_between x t hc i p q hp hq hxl hxr

/-- Witness for C7 on the concrete ramp trace at its midpoint. -/
theorem interp_monotone_consistent_witness :
    min (sampleAt 0 100).speed (sampleAt 10 200).speed ≤ interp 5 exRamp ∧
      interp 5 exRamp ≤ max (sampleAt 0 100).speed (sampleAt 10 200).speed :=
  interp_monotone_consistent exRamp
    (by norm_num [StrictlyIncreasing, exRamp, sampleAt])
    0 (sampleAt 0 100) (sampleAt 10 200) rfl rfl 5 (by decide) (by decide)

/-- Claim C5: every exception at the boundary of an external call is
converted to a console message plus a sentinel return value: `load_session`
returns `False` (and prints an error line) when the load raises and `True`
when it succeeds; `get_fastest_lap_telemetry` returns `None` (and prints an
error line) when lap retrieval raises, when the fastest lap is empty, or
when telemetry access raises, and a populated record on success. -/
theorem error_sentinel_returns (year : ℕ) (race st e : String) (s : Session)
    (d tm : String) (lt : ℚ) (ln : ℕ) (tel : Telemetry) :
    (load_session year race st (.raises e)).1 = false ∧
    (load_session year race st (.raises e)).2.2 ≠ [] ∧
    (load_session year race st (.ok s)).1 = true ∧
    (get_fastest_lap_telemetry d (.raises e)).1 = none ∧
    (get_fastest_lap_telemetry d (.raises e)).2 ≠ [] ∧
    (get_fastest_lap_telemetry d .emptyLap).1 = none ∧
    (get_fastest_lap_telemetry d .emptyLap).2 ≠ [] ∧
    (get_fastest_lap_telemetry d (.ok lt ln tm (.error e))).1 = none ∧
    (get_fastest_lap_telemetry d (.ok lt ln tm (.error e))).2 ≠ [] ∧
    (get_fastest_lap_telemetry d (.ok lt ln tm (.ok tel))).1 =
      some { driver := d, lapTime := lt, lapNumber := ln, telemetry := tel, team := tm } := by
  refine ⟨rfl, ?_, rfl, rfl, ?_, rfl, ?_, rfl, ?_, rfl⟩ <;> simp [load_session,
    get_fastest_lap_telemetry]

/-- Claim C6: the comparison summary's time difference is driver 1's lap
time minus driver 2's, the faster driver is the one with the strictly
smaller lap time, and each driver's max/avg speed is the maximum /
arithmetic mean of that driver's speed samples. -/
theorem comparison_summary_spec (a b : DriverInfo)
    (ha : a.telemetry ≠ []) (hb : b.telemetry ≠ []) :
    ∃ s, get_comparison_summary (some a) (some b) = some s ∧
      s.time_difference_seconds = a.lapTime - b.lapTime ∧
      (a.lapTime < b.lapTime → s.faster_driver = a.driver) ∧
      (b.lapTime < a.lapTime → s.faster_driver = b.driver) ∧
      s.driver1.maxSpeed ∈ speeds a.telemetry ∧
      (∀ v ∈ speeds a.telemetry, v ≤ s.driver1.maxSpeed) ∧
      s.driver2.maxSpeed ∈ speeds b.telemetry ∧
      (∀ v ∈ speeds b.telemetry, v ≤ s.driver2.maxSpeed) ∧
      s.driver1.avgSpeed = (speeds a.telemetry).sum / (speeds a.telemetry).length ∧
      s.driver2.avgSpeed = (speeds b.telemetry).sum / (speeds b.telemetry).length := by
  have hmax : ∀ (t : Telemetry), t ≠ [] →
      seriesMax (speeds t) ∈ speeds t ∧ ∀ v ∈ speeds t, v ≤ seriesMax (speeds t) := by
    intro t ht
    have hs : speeds t ≠ [] := by
      simp only [speeds, ne_eq, List.map_eq_nil_iff]
      exact ht
    obtain ⟨y, ys, hyy⟩ := List.exists_cons_of_ne_nil hs
    rw [hyy]
    exact ⟨foldl_max_mem ys y, fun v hv => le_foldl_max ys y v hv⟩
  refine ⟨_, rfl, rfl, ?_, ?_, (hmax a.telemetry ha).1, (hmax a.telemetry ha).2,
    (hmax b.telemetry hb).1, (hmax b.telemetry hb).2, rfl, rfl⟩
  · intro h
    show (if a.lapTime - b.lapTime < 0 then a.driver else b.driver) = a.driver
    rw [if_pos (sub_neg.mpr h)]
  · intro h
    show (if a.lapTime - b.lapTime < 0 then a.driver else b.driver) = b.driver
    rw [if_neg (not_lt.2 (sub_nonneg.2 h.le))]

/-- Witness for C6 at two concrete driver records (lap times 70 s, 72 s). -/
theorem comparison_summary_spec_witness :
    ∃ s, get_comparison_summary (some exDriver1) (some exDriver2) = some s ∧
      s.time_difference_seconds = exDriver1.lapTime - exDriver2.lapTime ∧
      (exDriver1.lapTime < exDriver2.lapTime → s.faster_driver = exDriver1.driver) ∧
      (exDriver2.lapTime < exDriver1.lapTime → s.faster_driver = exDriver2.driver) ∧
      s.driver1.maxSpeed ∈ speeds exDriver1.telemetry ∧
      (∀ v ∈ speeds exDriver1.telemetry, v ≤ s.driver1.maxSpeed) ∧
      s.driver2.maxSpeed ∈ speeds exDriver2.telemetry ∧
      (∀ v ∈ speeds exDriver2.telemetry, v ≤ s.driver2.maxSpeed) ∧
      s.driver1.avgSpeed =
        (speeds exDriver1.telemetry).sum / (speeds exDriver1.telemetry).length ∧
      s.driver2.avgSpeed =
        (speeds exDriver2.telemetry).sum / (speeds exDriver2.telemetry).length :=
  comparison_summary_spec exDriver1 exDriver2 (by decide) (by decide)

/-- Claim C9: the tie goes to driver 2 — when the two lap times are equal
the summary names driver 2 as the faster driver, and in general driver 1
is reported only when the time difference is strictly negative, driver 2
otherwise. -/
theorem faster_driver_tie_to_driver2 (a b : DriverInfo) :
    ∃ s, get_comparison_summary (some a) (some b) = some s ∧
      (a.lapTime = b.lapTime → s.faster_driver = b.driver) ∧
      (s.time_difference_seconds < 0 → s.faster_driver = a.driver) ∧
      (¬ s.time_difference_seconds < 0 → s.faster_driver = b.driver) := by
  refine ⟨_, rfl, ?_, ?_, ?_⟩
  · intro h
    show (if a.lapTime - b.lapTime < 0 then a.driver else b.driver) = b.driver
    rw [if_neg (by rw [h]; simp)]
  · intro h
    show (if a.lapTime - b.lapTime < 0 then a.driver else b.driver) = a.driver
    exact if_pos h
  · intro h
    show (if a.lapTime - b.lapTime < 0 then a.driver else b.driver) = b.driver
    exact if_neg h

/-- Witness for C9 at two records with exactly equal lap times. -/
theorem faster_driver_tie_to_driver2_witness :
    ∃ s, get_comparison_summary (some exDriver1) (some exDriverTie) = some s ∧
      (exDriver1.lapTime = exDriverTie.lapTime → s.faster_driver = exDriverTie.driver) ∧
      (s.time_difference_seconds < 0 → s.faster_driver = exDriver1.driver) ∧
      (¬ s.time_difference_seconds < 0 → s.faster_driver = exDriverTie.driver) :=
  faster_driver_tie_to_driver2 exDriver1 exDriverTie

/-- Claim C10: `compare_drivers` leaves `combined_data` untouched whenever
it returns `False` (no session loaded, or either telemetry fetch returned
`None`); `combined_data` is (re)assigned exactly on the calls where both
fetches succeed, in which case it holds the freshly combined dataset. -/
theorem compare_drivers_combined_data (st : AnalyzerState) (d1 d2 : String)
    (f1 f2 : LapFetch) :
    ((compare_drivers st d1 d2 f1 f2).1 = false →
      (compare_drivers st d1 d2 f1 f2).2.combined_data = st.combined_data) ∧
    ((compare_drivers st d1 d2 f1 f2).1 = true →
      ∃ a b, (get_fastest_lap_telemetry d1 f1).1 = some a ∧
        (get_fastest_lap_telemetry d2 f2).1 = some b ∧
        (compare_drivers st d1 d2 f1 f2).2.combined_data =
          some (_prepare_combined_data a b)) := by
  unfold compare_drivers
  cases hs : st.session with
  | none => simp
  | some s =>
    cases hr1 : (get_fastest_lap_telemetry d1 f1).1 with
    | none => simp
    | some a =>
      cases hr2 : (get_fastest_lap_telemetry d2 f2).1 with
      | none => simp
      | some b =>
        refine ⟨by simp, fun _ => ⟨a, b, rfl, rfl, by simp⟩⟩

/-- Witness for C10: with no session loaded, the call returns `False` and
`combined_data` stays `none`. -/
theorem compare_drivers_combined_data_witness :
    (compare_drivers
      { session := none, driver1_data := none, driver2_data := none, combined_data := none }
      "VER" "LEC" (.raises "e1") (.raises "e2")).2.combined_data = none :=
  (compare_drivers_combined_data
    { session := none, driver1_data := none, driver2_data := none, combined_data := none }
    "VER" "LEC" (.raises "e1") (.raises "e2")).1 rfl

/-- Claim C8: the exported combined CSV has one row per telemetry sample
per driver — its row count is the sum of the two drivers' sample counts,
with exactly one row per sample carrying each driver's code — and
re-parsing the written CSV reproduces every numeric cell to within
`10 ^ (-4)` (the modelled pandas formatting keeps 12 fractional digits). -/
theorem csv_export_roundtrip (a b : DriverInfo) (hd : a.driver ≠ b.driver) :
    (_prepare_combined_data a b).length = a.telemetry.length + b.telemetry.length ∧
    (_prepare_combined_data a b).countP (fun r => r.driver == a.driver) =
      a.telemetry.length ∧
    (_prepare_combined_data a b).countP (fun r => r.driver == b.driver) =
      b.telemetry.length ∧
    save_data (some (_prepare_combined_data a b)) =
      some ((_prepare_combined_data a b).map csv_roundtrip_row) ∧
    ∀ r ∈ _prepare_combined_data a b,
      (csv_roundtrip_row r).driver = r.driver ∧
      |(csv_roundtrip_row r).distance - r.distance| ≤ 1 / 10 ^ 4 ∧
      |(csv_roundtrip_row r).speed - r.speed| ≤ 1 / 10 ^ 4 ∧
      |(csv_roundtrip_row r).throttle - r.throttle| ≤ 1 / 10 ^ 4 ∧
      |(csv_roundtrip_row r).brake - r.brake| ≤ 1 / 10 ^ 4 ∧
      |(csv_roundtrip_row r).gear - r.gear| ≤ 1 / 10 ^ 4 ∧
      |(csv_roundtrip_row r).rpm - r.rpm| ≤ 1 / 10 ^ 4 := by
  have h1 : ((fun r : CombinedRow => r.driver == a.driver) ∘ tagRow a.driver) =
      fun _ : Sample => true := by
    funext s
    simp [tagRow]
  have h2 : ((fun r : CombinedRow => r.driver == a.driver) ∘ tagRow b.driver) =
      fun _ : Sample => false := by
    funext s
    simp [tagRow]
    exact Ne.symm hd
  have h3 : ((fun r : CombinedRow => r.driver == b.driver) ∘ tagRow b.driver) =
      fun _ : Sample => true := by
    funext s
    simp [tagRow]
  have h4 : ((fun r : CombinedRow => r.driver == b.driver) ∘ tagRow a.driver) =
      fun _ : Sample => false := by
    funext s
    simp [tagRow]
    exact hd
  refine ⟨?_, ?_, ?_, rfl, ?_⟩
  · simp [_prepare_combined_data]
  · simp [_prepare_combined_data, List.countP_append, List.countP_map, h1, h2]
  · simp [_prepare_combined_data, List.countP_append, List.countP_map, h3, h4]
  · intro r _
    exact ⟨rfl, to_csv_cell_close r.distance, to_csv_cell_close r.speed,
      to_csv_cell_close r.throttle, to_csv_cell_close r.brake,
      to_csv_cell_close r.gear, to_csv_cell_close r.rpm⟩

/-- Witness for C8 at the two concrete driver records. -/
theorem csv_export_roundtrip_witness :
    (_prepare_combined_data exDriver1 exDriver2).length =
      exDriver1.telemetry.length + exDriver2.telemetry.length ∧
    (_prepare_combined_data exDriver1 exDriver2).countP
      (fun r => r.driver == exDriver1.driver) = exDriver1.telemetry.length ∧
    (_prepare_combined_data exDriver1 exDriver2).countP
      (fun r => r.driver == exDriver2.driver) = exDriver2.telemetry.length ∧
    save_data (some (_prepare_combined_data exDriver1 exDriver2)) =
      some ((_prepare_combined_data exDriver1 exDriver2).map csv_roundtrip_row) ∧
    ∀ r ∈ _prepare_combined_data exDriver1 exDriver2,
      (csv_roundtrip_row r).driver = r.driver ∧
      |(csv_roundtrip_row r).distance - r.distance| ≤ 1 / 10 ^ 4 ∧
      |(csv_roundtrip_row r).speed - r.speed| ≤ 1 / 10 ^ 4 ∧
      |(csv_roundtrip_row r).throttle - r.throttle| ≤ 1 / 10 ^ 4 ∧
      |(csv_roundtrip_row r).brake - r.brake| ≤ 1 / 10 ^ 4 ∧
      |(csv_roundtrip_row r).gear - r.gear| ≤ 1 / 10 ^ 4 ∧
      |(csv_roundtrip_row r).rpm - r.rpm| ≤ 1 / 10 ^ 4 :=
  csv_export_roundtrip exDriver1 exDriver2 (by decide)

end F1
